import Mathlib

/-!
Formalisation of the `UiaTextRange` text-range core declared in
`src/interactivity/win32/UiaTextRange.hpp`: a text range over a circular
console text buffer, with coordinate conversion, range navigation and
query/projection operations.  The repository ships only the header, so the
bodies of the member functions are modelled from the specification; every
definition below whose doc comment starts with `Modelled from the spec:`
is such a model.
-/

namespace UiaTextRange

/-- Buffer geometry (total row count and row width), supplied fresh on each
call by the external buffer/window collaborator. -/
structure Geometry where
  totalRows : Nat
  rowWidth : Nat
deriving DecidableEq, Repr

/-- Viewport rectangle in row/column units (`SMALL_RECT` in the source):
top/left/bottom/right, all inclusive. -/
structure Viewport where
  top : Int
  left : Int
  bottom : Int
  right : Int
deriving DecidableEq, Repr

/-- Modelled from the spec: `_endpointToTextBufferRow` (body absent from the
header) — `endpointToTextBufferRow(e) = e / rowWidth`. -/
def _endpointToTextBufferRow (g : Geometry) (e : Nat) : Nat :=
  e / g.rowWidth

/-- Modelled from the spec: `_endpointToColumn` (body absent from the
header) — `endpointToColumn(e) = e % rowWidth`. -/
def _endpointToColumn (g : Geometry) (e : Nat) : Nat :=
  e % g.rowWidth

/-- Modelled from the spec: `_textBufferRowToEndpoint` (body absent from the
header) — `textBufferRowToEndpoint(row) = row * rowWidth`. -/
def _textBufferRowToEndpoint (g : Geometry) (row : Nat) : Nat :=
  row * g.rowWidth

/-- Modelled from the spec: `_textBufferRowToScreenInfoRow` (body absent from
the header) — identity in this coordinate scheme. -/
def _textBufferRowToScreenInfoRow (row : Nat) : Nat := row

/-- Modelled from the spec: `_screenInfoRowToTextBufferRow` (body absent from
the header) — identity in this coordinate scheme. -/
def _screenInfoRowToTextBufferRow (row : Nat) : Nat := row

/-- Modelled from the spec: `_endpointToScreenInfoRow` (body absent from the
header) — endpoint to text-buffer row, then to screen-info row. -/
def _endpointToScreenInfoRow (g : Geometry) (e : Nat) : Nat :=
  _textBufferRowToScreenInfoRow (_endpointToTextBufferRow g e)

/-- Modelled from the spec: `_screenInfoRowToEndpoint` (body absent from the
header) — screen-info row to text-buffer row, then to endpoint. -/
def _screenInfoRowToEndpoint (g : Geometry) (row : Nat) : Nat :=
  _textBufferRowToEndpoint g (_screenInfoRowToTextBufferRow row)

/-- Modelled from the spec: `_normalizeRow` (body absent from the header) —
wraps a signed row into `[0, totalRows)` with modulo arithmetic well-defined
for negative inputs (Euclidean modulo). -/
def _normalizeRow (g : Geometry) (row : Int) : Int :=
  row % (g.totalRows : Int)

/-- Modelled from the spec: `_screenInfoRowToViewportRow` (body absent from
the header) — `row - viewport.top`. -/
def _screenInfoRowToViewportRow (row : Nat) (v : Viewport) : Int :=
  (row : Int) - v.top

/-- Modelled from the spec: `_getViewportHeight` (body absent from the
header) — inclusive bottom/top difference plus one. -/
def _getViewportHeight (v : Viewport) : Int :=
  v.bottom - v.top + 1

/-- Modelled from the spec: `_getViewportWidth` (body absent from the
header) — inclusive right/left difference plus one. -/
def _getViewportWidth (v : Viewport) : Int :=
  v.right - v.left + 1

/-- Modelled from the spec: `_isScreenInfoRowInViewport` (body absent from
the header) — true iff `0 <= screenInfoRowToViewportRow(row, viewport) <
viewportHeight(viewport)`. -/
def _isScreenInfoRowInViewport (row : Nat) (v : Viewport) : Bool :=
  decide (0 ≤ _screenInfoRowToViewportRow row v ∧
    _screenInfoRowToViewportRow row v < _getViewportHeight v)

/-- Modelled from the spec: `_compareScreenCoords` (body absent from the
header) — −1/0/+1 by row-major order: rows first, columns break ties. -/
def _compareScreenCoords (rowA colA rowB colB : Nat) : Int :=
  if rowA < rowB then -1
  else if rowB < rowA then 1
  else if colA < colB then -1
  else if colB < colA then 1
  else 0

/-- The largest valid endpoint, `totalRows * rowWidth - 1`. -/
def _lastEndpoint (g : Geometry) : Nat :=
  g.totalRows * g.rowWidth - 1

/-- Modelled from the spec: endpoint clamping policy — an endpoint is always
clamped to `[0, totalRows * rowWidth)` before being stored into a range. -/
def _clampEndpoint (g : Geometry) (e : Nat) : Nat :=
  min e (_lastEndpoint g)

/-- The range state held by a `UiaTextRange` object: the `_start` and `_end`
endpoints and the `_degenerate` flag. -/
structure UiaRange where
  _start : Nat
  _end : Nat
  _degenerate : Bool
deriving DecidableEq, Repr

/-- The degenerate invariant: if `_degenerate` is true then `_start = _end`. -/
def wfRange (r : UiaRange) : Prop :=
  r._degenerate = true → r._start = r._end

/-- Modelled from the spec: the degenerate-range constructor (body absent
from the header) — a degenerate range at the default position. -/
def createDegenerate : UiaRange :=
  ⟨0, 0, true⟩

/-- Modelled from the spec: the cursor constructor (body absent from the
header) — a degenerate range at the cursor's row/column, clamped into the
valid endpoint range. -/
def createAtCursor (g : Geometry) (row col : Nat) : UiaRange :=
  let e := _clampEndpoint g (_textBufferRowToEndpoint g row + col)
  ⟨e, e, true⟩

/-- Modelled from the spec: the point constructor (body absent from the
header) — a degenerate range at the hit-tested row/column. -/
def createFromPoint (g : Geometry) (row col : Nat) : UiaRange :=
  createAtCursor g row col

/-- Modelled from the spec: the explicit-endpoints constructor (body absent
from the header) — fails fast when `degenerate` is true but the endpoints
differ; otherwise stores the endpoints clamped into the valid range. -/
def createExplicit (g : Geometry) (s e : Nat) (degenerate : Bool) :
    Option UiaRange :=
  if degenerate = true ∧ s ≠ e then none
  else some ⟨_clampEndpoint g s, _clampEndpoint g e, degenerate⟩

/-- The text units supported by the range operations (`TextUnit` in the
source); word/paragraph/page degrade to the nearest supported coarser
unit, so only these three granularities occur. -/
inductive TextUnit where
  | character
  | line
  | document
deriving DecidableEq, Repr

/-- The endpoint selector (`TextPatternRangeEndpoint` in the source). -/
inductive TextPatternRangeEndpoint where
  | Start
  | End
deriving DecidableEq, Repr

/-- The endpoint of `r` selected by `ep`. -/
def _getEndpointValue (r : UiaRange) (ep : TextPatternRangeEndpoint) : Nat :=
  match ep with
  | .Start => r._start
  | .End => r._end

/-- Modelled from the spec: the shared unit-movement arithmetic of `Move`
and `MoveEndpointByUnit` (bodies absent from the header).  Given a current
endpoint position, a unit and a signed count it returns the destination
endpoint, clamped at the buffer extremities, together with the signed
number of units actually traversed.  Character moves one column at a time
with row rollover; line moves are row-aligned; the whole buffer is a single
document unit. -/
def _moveEndpointPos (g : Geometry) (pos : Nat) (unit : TextUnit)
    (count : Int) : Nat × Int :=
  match unit with
  | .character =>
      let clamped := max 0 (min ((pos : Int) + count) ((_lastEndpoint g : Int)))
      (clamped.toNat, clamped - (pos : Int))
  | .line =>
      let row : Int := (_endpointToTextBufferRow g pos : Int)
      let clamped := max 0 (min (row + count) ((g.totalRows : Int) - 1))
      (_textBufferRowToEndpoint g clamped.toNat, clamped - row)
  | .document =>
      if count < 0 then (0, if pos = 0 then 0 else -1)
      else if 0 < count then
        (_lastEndpoint g, if pos = _lastEndpoint g then 0 else 1)
      else (pos, 0)

/-- Modelled from the spec: `Move` (body absent from the header) —
repositions both endpoints together by `count` units, collapsing the range
to degenerate at the destination, and returns the new range together with
the actual count of units traversed. -/
def Move (g : Geometry) (r : UiaRange) (unit : TextUnit) (count : Int) :
    UiaRange × Int :=
  let moved := _moveEndpointPos g r._start unit count
  (⟨moved.1, moved.1, true⟩, moved.2)

/-- Modelled from the spec: `MoveEndpointByUnit` (body absent from the
header) — moves only the selected endpoint; if the move would invert the
ordering relative to the other endpoint the range becomes degenerate at the
new position (the other endpoint snaps to match), and degeneracy is
re-evaluated otherwise. -/
def MoveEndpointByUnit (g : Geometry) (r : UiaRange)
    (ep : TextPatternRangeEndpoint) (unit : TextUnit) (count : Int) :
    UiaRange × Int :=
  match ep with
  | .Start =>
      let moved := _moveEndpointPos g r._start unit count
      if r._end < moved.1 then (⟨moved.1, moved.1, true⟩, moved.2)
      else (⟨moved.1, r._end, moved.1 == r._end⟩, moved.2)
  | .End =>
      let moved := _moveEndpointPos g r._end unit count
      if moved.1 < r._start then (⟨moved.1, moved.1, true⟩, moved.2)
      else (⟨r._start, moved.1, r._start == moved.1⟩, moved.2)

/-- Modelled from the spec: `MoveEndpointByRange` (body absent from the
header) — sets the selected endpoint to the exact position of the target
range's selected endpoint and re-evaluates degeneracy, snapping to a
degenerate range when the ordering would invert. -/
def MoveEndpointByRange (r : UiaRange) (ep : TextPatternRangeEndpoint)
    (target : UiaRange) (targetEp : TextPatternRangeEndpoint) : UiaRange :=
  match ep with
  | .Start =>
      let ns := _getEndpointValue target targetEp
      if r._end < ns then ⟨ns, ns, true⟩
      else ⟨ns, r._end, ns == r._end⟩
  | .End =>
      let ne := _getEndpointValue target targetEp
      if ne < r._start then ⟨ne, ne, true⟩
      else ⟨r._start, ne, r._start == ne⟩

/-- Modelled from the spec: `ExpandToEnclosingUnit` (body absent from the
header) — snaps `_start` down to the beginning of the enclosing unit and
`_end` up to its inclusive end: character keeps the single character at
`_start`, line snaps to column 0 through the last column of the endpoint
rows, document snaps to the full valid endpoint range. -/
def ExpandToEnclosingUnit (g : Geometry) (r : UiaRange) (unit : TextUnit) :
    UiaRange :=
  match unit with
  | .character => ⟨r._start, r._start, false⟩
  | .line =>
      ⟨_textBufferRowToEndpoint g (_endpointToTextBufferRow g r._start),
       _textBufferRowToEndpoint g (_endpointToTextBufferRow g r._end) +
         (g.rowWidth - 1),
       false⟩
  | .document => ⟨0, _lastEndpoint g, false⟩

/-- Modelled from the spec: `Compare` (body absent from the header) — true
iff both endpoints and degeneracy match exactly. -/
def Compare (r target : UiaRange) : Bool :=
  decide (r._start = target._start ∧ r._end = target._end ∧
    r._degenerate = target._degenerate)

/-- Modelled from the spec: `CompareEndpoints` (body absent from the
header) — converts both selected endpoints to screen row/column and applies
`_compareScreenCoords`. -/
def CompareEndpoints (g : Geometry) (r : UiaRange)
    (ep : TextPatternRangeEndpoint) (target : UiaRange)
    (targetEp : TextPatternRangeEndpoint) : Int :=
  let a := _getEndpointValue r ep
  let b := _getEndpointValue target targetEp
  _compareScreenCoords (_endpointToScreenInfoRow g a) (_endpointToColumn g a)
    (_endpointToScreenInfoRow g b) (_endpointToColumn g b)

/-- Modelled from the spec: the list of text-buffer rows a range spans, in
reading order, wrapping through row 0 when the start row exceeds the end
row. -/
def _rowsInRange (g : Geometry) (r : UiaRange) : List Nat :=
  let sRow := _endpointToTextBufferRow g r._start
  let eRow := _endpointToTextBufferRow g r._end
  if sRow ≤ eRow then List.range' sRow (eRow - sRow + 1)
  else List.range' sRow (g.totalRows - sRow) ++ List.range' 0 (eRow + 1)

/-- Modelled from the spec: `_rowCountInRange` (body absent from the
header) — the number of text-buffer rows spanned, accounting for
wraparound. -/
def _rowCountInRange (g : Geometry) (r : UiaRange) : Nat :=
  (_rowsInRange g r).length

/-- A text buffer: geometry plus read-only row content lookup, both owned
by the external buffer collaborator. -/
structure TextBuffer where
  geom : Geometry
  rowText : Nat → List Char

/-- The concatenation of the row content of every row a range spans, in
reading order. -/
def _fullText (tb : TextBuffer) (r : UiaRange) : List Char :=
  ((_rowsInRange tb.geom r).map tb.rowText).flatten

/-- Modelled from the spec: `GetText` (body absent from the header) —
concatenates row content from start to end in reading order with
wraparound, truncating to `maxLength` characters when `maxLength` is
non-negative; a degenerate range yields the empty string. -/
def GetText (tb : TextBuffer) (r : UiaRange) (maxLength : Int) : List Char :=
  if r._degenerate then []
  else if 0 ≤ maxLength then (_fullText tb r).take maxLength.toNat
  else _fullText tb r

/-- Modelled from the spec: `GetBoundingRectangles` (body absent from the
header) — one rectangle per screen-info row that intersects both the range
and the current viewport, identified here by its row; rows outside the
viewport contribute no rectangle. -/
def GetBoundingRectangles (g : Geometry) (v : Viewport) (r : UiaRange) :
    List Nat :=
  ((_rowsInRange g r).map _textBufferRowToScreenInfoRow).filter
    (fun row => _isScreenInfoRowInViewport row v)

/-- The abstract result an `ITextRangeProvider` call writes to its out
parameter. -/
inductive OpResult where
  | boolResult (b : Bool)
  | intResult (i : Int)
  | textResult (t : List Char)
  | rectsResult (rs : List Nat)
deriving DecidableEq, Repr

/-- One `ITextRangeProvider` call on a range, with its arguments. -/
inductive RangeOp where
  | compareOp (target : UiaRange)
  | compareEndpointsOp (ep : TextPatternRangeEndpoint) (target : UiaRange)
      (targetEp : TextPatternRangeEndpoint)
  | getTextOp (maxLength : Int)
  | getBoundingRectanglesOp (v : Viewport)
  | moveOp (unit : TextUnit) (count : Int)
  | moveEndpointByUnitOp (ep : TextPatternRangeEndpoint) (unit : TextUnit)
      (count : Int)
  | moveEndpointByRangeOp (ep : TextPatternRangeEndpoint)
      (target : UiaRange) (targetEp : TextPatternRangeEndpoint)
  | expandToEnclosingUnitOp (unit : TextUnit)
deriving DecidableEq, Repr

/-- Modelled from the spec: the effect of one call on the receiver's range
state — queries write only their out parameter, navigation operations
overwrite the endpoint state (bodies absent from the header). -/
def applyOp (tb : TextBuffer) (r : UiaRange) (op : RangeOp) :
    OpResult × UiaRange :=
  match op with
  | .compareOp target => (.boolResult (Compare r target), r)
  | .compareEndpointsOp ep target targetEp =>
      (.intResult (CompareEndpoints tb.geom r ep target targetEp), r)
  | .getTextOp maxLength => (.textResult (GetText tb r maxLength), r)
  | .getBoundingRectanglesOp v =>
      (.rectsResult (GetBoundingRectangles tb.geom v r), r)
  | .moveOp unit count =>
      ((.intResult (Move tb.geom r unit count).2), (Move tb.geom r unit count).1)
  | .moveEndpointByUnitOp ep unit count =>
      ((.intResult (MoveEndpointByUnit tb.geom r ep unit count).2),
       (MoveEndpointByUnit tb.geom r ep unit count).1)
  | .moveEndpointByRangeOp ep target targetEp =>
      (.boolResult true, MoveEndpointByRange r ep target targetEp)
  | .expandToEnclosingUnitOp unit =>
      (.boolResult true, ExpandToEnclosingUnit tb.geom r unit)

/-- Whether a call is a pure query (Compare, CompareEndpoints, GetText,
GetBoundingRectangles) as opposed to a navigation operation. -/
def isQueryOp (op : RangeOp) : Bool :=
  match op with
  | .compareOp _ => true
  | .compareEndpointsOp _ _ _ => true
  | .getTextOp _ => true
  | .getBoundingRectanglesOp _ => true
  | _ => false

/-- Unit movement stays inside the buffer, never traverses more units than
requested, and a zero count traverses nothing. -/
theorem moveEndpointPos_spec (g : Geometry) (pos : Nat) (unit : TextUnit)
    (count : Int) (hT : 0 < g.totalRows) (hw : 0 < g.rowWidth)
    (hpos : pos ≤ _lastEndpoint g) :
    (_moveEndpointPos g pos unit count).1 ≤ _lastEndpoint g ∧
    (_moveEndpointPos g pos unit count).2.natAbs ≤ count.natAbs ∧
    (count = 0 → (_moveEndpointPos g pos unit count).2 = 0) := by
  have hTw : 0 < g.totalRows * g.rowWidth := Nat.mul_pos hT hw
  cases unit
  case character =>
    simp only [_moveEndpointPos]
    refine ⟨?_, by omega, by omega⟩
    omega
  case line =>
    simp only [_moveEndpointPos, _endpointToTextBufferRow,
      _textBufferRowToEndpoint]
    have hrow : pos / g.rowWidth ≤ g.totalRows - 1 := by
      have h1 : pos < g.totalRows * g.rowWidth := by
        simp only [_lastEndpoint] at hpos
        omega
      have h2 : pos / g.rowWidth < g.totalRows :=
        Nat.div_lt_of_lt_mul (by rw [Nat.mul_comm] at h1; exact h1)
      omega
    generalize hq : pos / g.rowWidth = q
    rw [hq] at hrow
    refine ⟨?_, by omega, by omega⟩
    have hcl : (max 0 (min ((q : Int) + count)
        ((g.totalRows : Int) - 1))).toNat ≤ g.totalRows - 1 := by
      omega
    calc (max 0 (min ((q : Int) + count)
          ((g.totalRows : Int) - 1))).toNat * g.rowWidth
        ≤ (g.totalRows - 1) * g.rowWidth := Nat.mul_le_mul_right _ hcl
      _ ≤ _lastEndpoint g := by
          rw [Nat.sub_mul, Nat.one_mul]
          simp only [_lastEndpoint]
          omega
  case document =>
    simp only [_moveEndpointPos]
    split_ifs <;> refine ⟨?_, ?_, ?_⟩ <;> dsimp only <;> omega

/-- C4: for every endpoint and positive row width, the row/column
decomposition round-trips: `textBufferRowToEndpoint (endpointToTextBufferRow e)
≤ e < textBufferRowToEndpoint (endpointToTextBufferRow e) + rowWidth`, with
`endpointToTextBufferRow e = e / rowWidth`, `endpointToColumn e = e % rowWidth`
and `textBufferRowToEndpoint row = row * rowWidth`. -/
theorem c4_roundtrip_decomposition (g : Geometry) (e : Nat)
    (hw : 0 < g.rowWidth) :
    _textBufferRowToEndpoint g (_endpointToTextBufferRow g e) ≤ e ∧
    e < _textBufferRowToEndpoint g (_endpointToTextBufferRow g e) + g.rowWidth ∧
    _endpointToTextBufferRow g e = e / g.rowWidth ∧
    _endpointToColumn g e = e % g.rowWidth ∧
    ∀ row : Nat, _textBufferRowToEndpoint g row = row * g.rowWidth := by
  refine ⟨?_, ?_, rfl, rfl, fun row => rfl⟩
  · exact Nat.div_mul_le_self e g.rowWidth
  · show e < e / g.rowWidth * g.rowWidth + g.rowWidth
    have h1 := Nat.div_add_mod e g.rowWidth
    have h2 : e % g.rowWidth < g.rowWidth := Nat.mod_lt e hw
    rw [Nat.mul_comm (e / g.rowWidth) g.rowWidth]
    omega

/-- Witness for C4 at `totalRows = 10`, `rowWidth = 80`, `e = 123`. -/
theorem c4_roundtrip_decomposition_witness :
    _textBufferRowToEndpoint ⟨10, 80⟩ (_endpointToTextBufferRow ⟨10, 80⟩ 123) ≤ 123 ∧
    123 < _textBufferRowToEndpoint ⟨10, 80⟩ (_endpointToTextBufferRow ⟨10, 80⟩ 123) +
      (Geometry.mk 10 80).rowWidth ∧
    _endpointToTextBufferRow ⟨10, 80⟩ 123 = 123 / (Geometry.mk 10 80).rowWidth ∧
    _endpointToColumn ⟨10, 80⟩ 123 = 123 % (Geometry.mk 10 80).rowWidth ∧
    ∀ row : Nat, _textBufferRowToEndpoint ⟨10, 80⟩ row = row * (Geometry.mk 10 80).rowWidth :=
  c4_roundtrip_decomposition ⟨10, 80⟩ 123 (by decide)

/-- C5: for every signed row and positive `totalRows`, `_normalizeRow` lands
in `[0, totalRows)`, is periodic with period `totalRows`, and wraps `-1` to
`totalRows - 1`. -/
theorem c5_normalizeRow_wraps (g : Geometry) (r : Int) (hT : 0 < g.totalRows) :
    0 ≤ _normalizeRow g r ∧ _normalizeRow g r < g.totalRows ∧
    _normalizeRow g (r + g.totalRows) = _normalizeRow g r ∧
    _normalizeRow g (-1) = (g.totalRows : Int) - 1 := by
  have hT' : (0 : Int) < (g.totalRows : Int) := by exact_mod_cast hT
  refine ⟨Int.emod_nonneg r (by omega), Int.emod_lt_of_pos r hT', ?_, ?_⟩
  · simp only [_normalizeRow]
    have h := Int.add_mul_emod_self_left r (g.totalRows : Int) 1
    rw [Int.mul_one] at h
    exact h
  · simp only [_normalizeRow]
    have h1 := Int.add_mul_emod_self_left (-1) (g.totalRows : Int) 1
    rw [Int.mul_one] at h1
    have h2 : (-1 : Int) + (g.totalRows : Int) = (g.totalRows : Int) - 1 := by
      ring
    rw [h2] at h1
    rw [← h1]
    exact Int.emod_eq_of_lt (by omega) (by omega)

/-- Witness for C5 at `totalRows = 10`, `r = -1`. -/
theorem c5_normalizeRow_wraps_witness :
    0 ≤ _normalizeRow ⟨10, 80⟩ (-1) ∧ _normalizeRow ⟨10, 80⟩ (-1) < (10 : Nat) ∧
    _normalizeRow ⟨10, 80⟩ (-1 + (10 : Nat)) = _normalizeRow ⟨10, 80⟩ (-1) ∧
    _normalizeRow ⟨10, 80⟩ (-1) = ((10 : Nat) : Int) - 1 :=
  c5_normalizeRow_wraps ⟨10, 80⟩ (-1) (by decide)

/-- C6: `_compareScreenCoords` returns −1, 0 or +1 by row-major order (rows
first, columns break ties), is reflexive and is antisymmetric. -/
theorem c6_compareScreenCoords_rowMajor (rowA colA rowB colB : Nat) :
    _compareScreenCoords rowA colA rowA colA = 0 ∧
    _compareScreenCoords rowA colA rowB colB =
      -(_compareScreenCoords rowB colB rowA colA) ∧
    (_compareScreenCoords rowA colA rowB colB = -1 ∨
     _compareScreenCoords rowA colA rowB colB = 0 ∨
     _compareScreenCoords rowA colA rowB colB = 1) ∧
    (rowA < rowB → _compareScreenCoords rowA colA rowB colB = -1) ∧
    (rowB < rowA → _compareScreenCoords rowA colA rowB colB = 1) ∧
    (rowA = rowB → colA < colB → _compareScreenCoords rowA colA rowB colB = -1) ∧
    (rowA = rowB → colB < colA → _compareScreenCoords rowA colA rowB colB = 1) ∧
    (rowA = rowB → colA = colB → _compareScreenCoords rowA colA rowB colB = 0) := by
  unfold _compareScreenCoords
  refine ⟨by split_ifs <;> omega, by split_ifs <;> omega, by split_ifs <;> omega,
    ?_, ?_, ?_, ?_, ?_⟩ <;> intros <;> split_ifs <;> omega

/-- Witness for C6 at rows `1 = 1`, columns `2 < 5`. -/
theorem c6_compareScreenCoords_rowMajor_witness :
    _compareScreenCoords 1 2 1 5 = -1 :=
  (c6_compareScreenCoords_rowMajor 1 2 1 5).2.2.2.2.2.1 rfl (by decide)

/-- C1: the degenerate invariant (`_degenerate = true → _start = _end`) is
established by every construction path and preserved by every navigation
operation, and constructing explicitly with `degenerate = true` and
`start ≠ end` fails fast with no range produced. -/
theorem c1_degenerate_invariant :
    (∀ (g : Geometry) (s e : Nat), s ≠ e → createExplicit g s e true = none) ∧
    wfRange createDegenerate ∧
    (∀ (g : Geometry) (row col : Nat), wfRange (createAtCursor g row col)) ∧
    (∀ (g : Geometry) (row col : Nat), wfRange (createFromPoint g row col)) ∧
    (∀ (g : Geometry) (s e : Nat) (d : Bool) (r : UiaRange),
      createExplicit g s e d = some r → wfRange r) ∧
    (∀ (g : Geometry) (r : UiaRange) (unit : TextUnit) (count : Int),
      wfRange (Move g r unit count).1) ∧
    (∀ (g : Geometry) (r : UiaRange) (ep : TextPatternRangeEndpoint)
      (unit : TextUnit) (count : Int),
      wfRange (MoveEndpointByUnit g r ep unit count).1) ∧
    (∀ (g : Geometry) (r : UiaRange) (unit : TextUnit),
      wfRange (ExpandToEnclosingUnit g r unit)) ∧
    (∀ (r target : UiaRange) (ep targetEp : TextPatternRangeEndpoint),
      wfRange (MoveEndpointByRange r ep target targetEp)) := by
  refine ⟨?_, ?_, ?_, ?_, ?_, ?_, ?_, ?_, ?_⟩
  · intro g s e h
    simp [createExplicit, h]
  · intro h
    rfl
  · intro g row col h
    rfl
  · intro g row col h
    rfl
  · intro g s e d r h
    unfold createExplicit at h
    split at h
    · exact absurd h (by simp)
    · rename_i hguard
      injection h with h2
      subst h2
      intro hd
      simp only at hd
      have hse : s = e := by
        by_contra hne
        exact hguard ⟨hd, hne⟩
      simp [hse]
  · intro g r unit count h
    rfl
  · intro g r ep unit count
    unfold wfRange MoveEndpointByUnit
    cases ep <;> dsimp only <;> split <;> intro h <;> simp_all
  · intro g r unit
    unfold wfRange ExpandToEnclosingUnit
    cases unit <;> intro h <;> simp_all
  · intro r target ep targetEp
    unfold wfRange MoveEndpointByRange
    cases ep <;> dsimp only <;> split <;> intro h <;> simp_all

/-- Witness for C1: the explicit constructor rejects `degenerate = true`
with `start = 3 ≠ 7 = end`. -/
theorem c1_degenerate_invariant_witness :
    createExplicit ⟨10, 80⟩ 3 7 true = none :=
  c1_degenerate_invariant.1 ⟨10, 80⟩ 3 7 (by decide)

/-- C2: `Move` collapses the range to degenerate at the destination, stays
clamped inside the buffer, traverses at most `|count|` units, and on the
10×80 buffer moving a degenerate range at endpoint 0 by one line lands at
endpoint 80 with actual count 1, while moving by 20 lines clamps to row 9
with actual count 9. -/
theorem c2_move_clamped (g : Geometry) (r : UiaRange) (unit : TextUnit)
    (count : Int)
    (h : 0 < g.totalRows ∧ 0 < g.rowWidth ∧ r._start ≤ _lastEndpoint g) :
    (Move g r unit count).1._degenerate = true ∧
    (Move g r unit count).1._start = (Move g r unit count).1._end ∧
    (Move g r unit count).1._start ≤ _lastEndpoint g ∧
    (Move g r unit count).2.natAbs ≤ count.natAbs ∧
    (count = 0 → (Move g r unit count).2 = 0) ∧
    Move ⟨10, 80⟩ ⟨0, 0, true⟩ .line 1 = (⟨80, 80, true⟩, 1) ∧
    Move ⟨10, 80⟩ ⟨0, 0, true⟩ .line 20 = (⟨720, 720, true⟩, 9) := by
  obtain ⟨hT, hw, hpos⟩ := h
  have hs := moveEndpointPos_spec g r._start unit count hT hw hpos
  exact ⟨rfl, rfl, hs.1, hs.2.1, hs.2.2, by decide, by decide⟩

/-- Witness for C2 on the 10×80 buffer, a degenerate range at endpoint 0,
one line. -/
theorem c2_move_clamped_witness :
    (Move ⟨10, 80⟩ ⟨0, 0, true⟩ .line 1).1._degenerate = true ∧
    (Move ⟨10, 80⟩ ⟨0, 0, true⟩ .line 1).1._start =
      (Move ⟨10, 80⟩ ⟨0, 0, true⟩ .line 1).1._end ∧
    (Move ⟨10, 80⟩ ⟨0, 0, true⟩ .line 1).1._start ≤ _lastEndpoint ⟨10, 80⟩ ∧
    (Move ⟨10, 80⟩ ⟨0, 0, true⟩ .line 1).2.natAbs ≤ (1 : Int).natAbs ∧
    ((1 : Int) = 0 → (Move ⟨10, 80⟩ ⟨0, 0, true⟩ .line 1).2 = 0) ∧
    Move ⟨10, 80⟩ ⟨0, 0, true⟩ .line 1 = (⟨80, 80, true⟩, 1) ∧
    Move ⟨10, 80⟩ ⟨0, 0, true⟩ .line 20 = (⟨720, 720, true⟩, 9) :=
  c2_move_clamped ⟨10, 80⟩ ⟨0, 0, true⟩ .line 1 (by decide)

/-- C3: after `MoveEndpointByUnit` the range is never inverted but
non-degenerate: the result's start never exceeds its end, the degenerate
invariant holds, and when the moved endpoint would cross the other one the
range becomes degenerate at the new position with the other endpoint
snapped to the same value. -/
theorem c3_moveEndpointByUnit_never_inverted (g : Geometry) (r : UiaRange)
    (ep : TextPatternRangeEndpoint) (unit : TextUnit) (count : Int) :
    (MoveEndpointByUnit g r ep unit count).1._start ≤
      (MoveEndpointByUnit g r ep unit count).1._end ∧
    wfRange (MoveEndpointByUnit g r ep unit count).1 ∧
    (ep = .Start → r._end < (_moveEndpointPos g r._start unit count).1 →
      (MoveEndpointByUnit g r ep unit count).1 =
        ⟨(_moveEndpointPos g r._start unit count).1,
         (_moveEndpointPos g r._start unit count).1, true⟩) ∧
    (ep = .End → (_moveEndpointPos g r._end unit count).1 < r._start →
      (MoveEndpointByUnit g r ep unit count).1 =
        ⟨(_moveEndpointPos g r._end unit count).1,
         (_moveEndpointPos g r._end unit count).1, true⟩) := by
  refine ⟨?_, ?_, ?_, ?_⟩
  · unfold MoveEndpointByUnit
    cases ep <;> dsimp only <;> split <;> simp_all
  · unfold wfRange MoveEndpointByUnit
    cases ep <;> dsimp only <;> split <;> intro h <;> simp_all
  · intro hep hcross
    subst hep
    unfold MoveEndpointByUnit
    dsimp only
    rw [if_pos hcross]
  · intro hep hcross
    subst hep
    unfold MoveEndpointByUnit
    dsimp only
    rw [if_pos hcross]

/-- Witness for C3: moving the start endpoint of the range `[0, 80]` by two
lines on the 10×80 buffer crosses the end endpoint, so the range snaps to a
degenerate range at endpoint 160. -/
theorem c3_moveEndpointByUnit_never_inverted_witness :
    (MoveEndpointByUnit ⟨10, 80⟩ ⟨0, 80, false⟩ .Start .line 2).1 =
      ⟨(_moveEndpointPos ⟨10, 80⟩ 0 .line 2).1,
       (_moveEndpointPos ⟨10, 80⟩ 0 .line 2).1, true⟩ :=
  (c3_moveEndpointByUnit_never_inverted ⟨10, 80⟩ ⟨0, 80, false⟩ .Start .line
    2).2.2.1 rfl (by decide)

/-- Row-aligned division helper: a full multiple of the row width plus an
in-row column divides back to the row. -/
theorem rowAligned_div (a b w : Nat) (hw : 0 < w) (hb : b < w) :
    (a * w + b) / w = a := by
  rw [Nat.add_comm, Nat.add_mul_div_right b a hw, Nat.div_eq_of_lt hb,
    Nat.zero_add]

/-- Row-aligned modulo helper: a full multiple of the row width plus an
in-row column reduces to the column. -/
theorem rowAligned_mod (a b w : Nat) (hb : b < w) :
    (a * w + b) % w = b := by
  rw [Nat.add_comm, Nat.add_mul_mod_self_right, Nat.mod_eq_of_lt hb]

/-- C7: `ExpandToEnclosingUnit` is idempotent for every supported unit, and
for the line unit the expanded range runs from column 0 of the start row
through the last column of the end row. -/
theorem c7_expandToEnclosingUnit_idempotent (g : Geometry) (r : UiaRange)
    (unit : TextUnit) :
    ExpandToEnclosingUnit g (ExpandToEnclosingUnit g r unit) unit =
      ExpandToEnclosingUnit g r unit ∧
    (0 < g.rowWidth →
      _endpointToColumn g (ExpandToEnclosingUnit g r .line)._start = 0 ∧
      _endpointToColumn g (ExpandToEnclosingUnit g r .line)._end =
        g.rowWidth - 1 ∧
      _endpointToTextBufferRow g (ExpandToEnclosingUnit g r .line)._start =
        _endpointToTextBufferRow g r._start ∧
      _endpointToTextBufferRow g (ExpandToEnclosingUnit g r .line)._end =
        _endpointToTextBufferRow g r._end) := by
  constructor
  · cases unit
    case character => rfl
    case document => rfl
    case line =>
      simp only [ExpandToEnclosingUnit, _endpointToTextBufferRow,
        _textBufferRowToEndpoint]
      rcases Nat.eq_zero_or_pos g.rowWidth with hw | hw
      · simp [hw]
      · rw [Nat.mul_div_cancel _ hw,
          rowAligned_div (r._end / g.rowWidth) (g.rowWidth - 1) g.rowWidth hw
            (by omega)]
  · intro hw
    simp only [ExpandToEnclosingUnit, _endpointToTextBufferRow,
      _endpointToColumn, _textBufferRowToEndpoint]
    refine ⟨Nat.mul_mod_left _ _, ?_, Nat.mul_div_cancel _ hw, ?_⟩
    · exact rowAligned_mod (r._end / g.rowWidth) (g.rowWidth - 1) g.rowWidth
        (by omega)
    · exact rowAligned_div (r._end / g.rowWidth) (g.rowWidth - 1) g.rowWidth
        hw (by omega)

/-- Witness for C7 on the 10×80 buffer at the range `[5, 100]`: line
expansion yields column 0 and column 79 on the original rows. -/
theorem c7_expandToEnclosingUnit_idempotent_witness :
    _endpointToColumn ⟨10, 80⟩
        (ExpandToEnclosingUnit ⟨10, 80⟩ ⟨5, 100, false⟩ .line)._start = 0 ∧
    _endpointToColumn ⟨10, 80⟩
        (ExpandToEnclosingUnit ⟨10, 80⟩ ⟨5, 100, false⟩ .line)._end =
      (Geometry.mk 10 80).rowWidth - 1 ∧
    _endpointToTextBufferRow ⟨10, 80⟩
        (ExpandToEnclosingUnit ⟨10, 80⟩ ⟨5, 100, false⟩ .line)._start =
      _endpointToTextBufferRow ⟨10, 80⟩ (UiaRange.mk 5 100 false)._start ∧
    _endpointToTextBufferRow ⟨10, 80⟩
        (ExpandToEnclosingUnit ⟨10, 80⟩ ⟨5, 100, false⟩ .line)._end =
      _endpointToTextBufferRow ⟨10, 80⟩ (UiaRange.mk 5 100 false)._end :=
  (c7_expandToEnclosingUnit_idempotent ⟨10, 80⟩ ⟨5, 100, false⟩ .line).2
    (by decide)

/-- Mapping text-buffer rows to screen-info rows is the identity on lists. -/
theorem map_screenInfoRow_id (l : List Nat) :
    l.map _textBufferRowToScreenInfoRow = l := by
  induction l with
  | nil => rfl
  | cons a t ih => simp [_textBufferRowToScreenInfoRow, ih]

/-- C8: `GetText` yields the empty string on a degenerate range; otherwise
it returns the concatenated row content of the rows the range spans in
reading order (with wraparound), truncated to `maxLength` characters when
`maxLength` is non-negative and exact when it is negative; on a 3×1 buffer
holding rows `a`, `b`, `c`, the wrapping range from row 2 to row 0 reads
`ca`. -/
theorem c8_getText_concatenation (tb : TextBuffer) (r : UiaRange)
    (maxLength : Int) :
    (r._degenerate = true → GetText tb r maxLength = []) ∧
    (0 ≤ maxLength →
      GetText tb r maxLength = if r._degenerate then [] else
        (_fullText tb r).take maxLength.toNat) ∧
    (0 ≤ maxLength → (GetText tb r maxLength).length ≤ maxLength.toNat) ∧
    (r._degenerate = false → maxLength < 0 →
      GetText tb r maxLength = _fullText tb r) ∧
    GetText ⟨⟨3, 1⟩, fun i => if i = 0 then ['a'] else if i = 1 then ['b']
      else ['c']⟩ ⟨2, 0, false⟩ (-1) = ['c', 'a'] := by
  refine ⟨?_, ?_, ?_, ?_, by decide⟩
  · intro h
    simp [GetText, h]
  · intro h
    simp [GetText, h]
  · intro h
    unfold GetText
    split_ifs
    · simp
    · exact le_trans (List.length_take_le _ _) (Nat.le_refl _)
  · intro hd h
    simp [GetText, hd]
    omega

/-- Witness for C8: a non-degenerate range with negative `maxLength`
returns the untruncated concatenation. -/
theorem c8_getText_concatenation_witness :
    GetText ⟨⟨3, 1⟩, fun i => if i = 0 then ['a'] else if i = 1 then ['b']
      else ['c']⟩ ⟨2, 0, false⟩ (-1) =
    _fullText ⟨⟨3, 1⟩, fun i => if i = 0 then ['a'] else if i = 1 then ['b']
      else ['c']⟩ ⟨2, 0, false⟩ :=
  (c8_getText_concatenation ⟨⟨3, 1⟩, fun i => if i = 0 then ['a'] else
    if i = 1 then ['b'] else ['c']⟩ ⟨2, 0, false⟩ (-1)).2.2.2.1 rfl (by decide)

/-- C9: `GetBoundingRectangles` emits exactly the rows that lie both in the
range and in the viewport, never more than `RowCountInRange`; the range
spanning rows 8–9 of the 10×80 buffer yields 2 rectangles against the
viewport showing rows 0–9 and 0 rectangles (strictly fewer than its row
count) against the viewport showing rows 0–7. -/
theorem c9_getBoundingRectangles_viewport (g : Geometry) (v : Viewport)
    (r : UiaRange) :
    (∀ row : Nat, row ∈ GetBoundingRectangles g v r ↔
      row ∈ _rowsInRange g r ∧ _isScreenInfoRowInViewport row v = true) ∧
    (GetBoundingRectangles g v r).length ≤ _rowCountInRange g r ∧
    GetBoundingRectangles ⟨10, 80⟩ ⟨0, 0, 9, 79⟩ ⟨640, 799, false⟩ = [8, 9] ∧
    GetBoundingRectangles ⟨10, 80⟩ ⟨0, 0, 7, 79⟩ ⟨640, 799, false⟩ = [] ∧
    (GetBoundingRectangles ⟨10, 80⟩ ⟨0, 0, 7, 79⟩ ⟨640, 799, false⟩).length <
      _rowCountInRange ⟨10, 80⟩ ⟨640, 799, false⟩ := by
  refine ⟨?_, ?_, by decide, by decide, by decide⟩
  · intro row
    unfold GetBoundingRectangles
    rw [map_screenInfoRow_id]
    exact List.mem_filter
  · unfold GetBoundingRectangles _rowCountInRange
    rw [map_screenInfoRow_id]
    exact List.length_filter_le _ _

/-- Witness for C9: row 8 is reported for the rows 8–9 range against the
rows 0–9 viewport because it lies in both. -/
theorem c9_getBoundingRectangles_viewport_witness :
    8 ∈ GetBoundingRectangles ⟨10, 80⟩ ⟨0, 0, 9, 79⟩ ⟨640, 799, false⟩ :=
  ((c9_getBoundingRectangles_viewport ⟨10, 80⟩ ⟨0, 0, 9, 79⟩
    ⟨640, 799, false⟩).1 8).mpr (by decide)

/-- C10: the pure queries Compare, CompareEndpoints, GetText and
GetBoundingRectangles leave the range state unchanged; only navigation
operations rewrite it. -/
theorem c10_queries_leave_state (tb : TextBuffer) (r : UiaRange)
    (op : RangeOp) (h : isQueryOp op = true) :
    (applyOp tb r op).2 = r := by
  cases op <;> simp_all [applyOp, isQueryOp]

/-- Witness for C10: a `GetText` call on a concrete range returns that
range's state untouched. -/
theorem c10_queries_leave_state_witness :
    (applyOp ⟨⟨10, 80⟩, fun _ => []⟩ ⟨0, 80, false⟩ (.getTextOp 5)).2 =
      ⟨0, 80, false⟩ :=
  c10_queries_leave_state ⟨⟨10, 80⟩, fun _ => []⟩ ⟨0, 80, false⟩
    (.getTextOp 5) rfl
